import Mathlib

set_option autoImplicit false

namespace PathML

/-! # Shallow embedding of the pathml mask / store / tile-grid / pipeline core

The repository sources available are `pathml/core/masks.py`,
`pathml/datasets/__init__.py` and the integration test
`tests/integration_tests/test_pipeline_running.py`.  The `Masks` class is
embedded directly from `masks.py`.  The backing store
(`pathml.core.h5managers.h5pathManager`), the tile grid and the pipeline
engine are not part of the sources, so they are modelled from the spec
(each such definition says so in its doc comment); the tile-count formula
additionally follows the repository's own test assertion. -/

/-- Numpy dtypes relevant to masks and tiles. -/
inductive Dtype where
  | int8 | int16 | int32 | int64 | uint8 | uint16
  | float16 | float32 | float64
  deriving DecidableEq, Repr

/-- Whether a dtype is integer-typed (the mask namespace constraint). -/
def Dtype.isInt : Dtype → Bool
  | .int8 | .int16 | .int32 | .int64 | .uint8 | .uint16 => true
  | _ => false

/-- A numpy array: a dtype, a shape, and flattened element data (elements of
float-typed arrays are modelled by their bit patterns, so equality is exact
bit equality, matching the spec's round-trip equality notion). -/
structure NpArray where
  dtype : Dtype
  shape : List Nat
  data : List Int
  deriving DecidableEq, Repr

/-- A sample integer-typed mask array used by concrete witnesses. -/
def sampleMask : NpArray := ⟨Dtype.int8, [2, 2], [0, 1, 1, 0]⟩

/-- Another sample integer-typed mask array. -/
def sampleMask2 : NpArray := ⟨Dtype.int8, [2, 2], [1, 1, 1, 1]⟩

/-- A float-typed array (not a valid mask value). -/
def floatMask : NpArray := ⟨Dtype.float32, [1], [7]⟩

/-- Scalar Python values appearing as dict keys/values in `Masks.__init__`. -/
inductive PyVal where
  | pynone
  | pybool (b : Bool)
  | pyint (n : Int)
  | pystr (s : String)
  | arr (a : NpArray)
  deriving DecidableEq, Repr

/-- A Python object passed as the `masks` argument: a scalar, a list, or a
dict (association list of key/value pairs, in insertion order). -/
inductive PyObj where
  | scalar (v : PyVal)
  | pylist (xs : List PyVal)
  | pydict (entries : List (PyVal × PyVal))
  deriving DecidableEq, Repr

/-- Python truthiness of the values that can reach `if masks:` in
`Masks.__init__` (an ndarray's truthiness is modelled as nonemptiness). -/
def PyObj.truthy : PyObj → Bool
  | .scalar .pynone => false
  | .scalar (.pybool b) => b
  | .scalar (.pyint n) => n ≠ 0
  | .scalar (.pystr s) => s ≠ ""
  | .scalar (.arr a) => a.data ≠ []
  | .pylist xs => xs ≠ []
  | .pydict entries => entries ≠ []

def PyVal.isNdarray : PyVal → Bool
  | .arr _ => true
  | _ => false

def PyVal.isStr : PyVal → Bool
  | .pystr _ => true
  | _ => false

/-- The string content of a key already checked to be a `str`. -/
def PyVal.asStr : PyVal → String
  | .pystr s => s
  | _ => ""

/-- The array content of a value already checked to be an ndarray. -/
def PyVal.asArr : PyVal → NpArray
  | .arr a => a
  | _ => ⟨Dtype.int8, [], []⟩

/-- A mask scope: the slide itself or one tile, per the spec's
`put_mask(scope, key, array)` contract. -/
inductive Scope where
  | slide
  | tileAt (x y : Int)
  deriving DecidableEq, Repr

/-- Errors raised by store mask operations (spec §7 error kinds). -/
inductive MaskErr where
  | duplicateKey
  | notFound
  | invalidKey
  | typeMismatch
  deriving DecidableEq, Repr

/-- Modelled from the spec: the mask namespace of the backing store
(`pathml.core.h5managers.h5pathManager` is not among the sources; spec §4.2
describes `put_mask`/`get_mask`/`remove_mask` and §4.3 the insert-only `add`
and insertion-ordered keys).  Entries are kept in insertion order as an
association list keyed by (scope, key). -/
structure H5Manager where
  masks : List ((Scope × String) × NpArray)
  deriving DecidableEq, Repr

def H5Manager.empty : H5Manager := ⟨[]⟩

/-- Whether a mask with the given scope and key is present. -/
def H5Manager.hasMask (m : H5Manager) (s : Scope) (k : String) : Bool :=
  m.masks.any (fun e => e.1 = (s, k))

/-- The keys currently present at a scope, in insertion order (models
`h5manager.h5["masks"].keys()` for the slide scope). -/
def H5Manager.maskKeysAt (m : H5Manager) (s : Scope) : List String :=
  (m.masks.filter (fun e => e.1.1 = s)).map (fun e => e.1.2)

/-- Modelled from the spec: insert-only mask add.  Fails with `InvalidKey` on
an empty key and `TypeMismatch` on a non-integer-typed array (§4.2, in the
order the spec lists them), with `DuplicateKey` if the key exists (§4.3);
otherwise appends the entry (insertion order preserved). -/
def H5Manager.add_mask (m : H5Manager) (s : Scope) (k : String) (a : NpArray) :
    Except MaskErr H5Manager :=
  if k = "" then .error .invalidKey
  else if ¬ a.dtype.isInt then .error .typeMismatch
  else if m.hasMask s k then .error .duplicateKey
  else .ok ⟨m.masks ++ [((s, k), a)]⟩

/-- Modelled from the spec: explicit overwrite of an existing mask (§3: no
implicit creation, so a missing key is `NotFound`); the same key/type
constraints apply to the written value. -/
def H5Manager.update_mask (m : H5Manager) (s : Scope) (k : String) (a : NpArray) :
    Except MaskErr H5Manager :=
  if k = "" then .error .invalidKey
  else if ¬ a.dtype.isInt then .error .typeMismatch
  else if m.hasMask s k then
    .ok ⟨m.masks.map (fun e => if e.1 = (s, k) then ((s, k), a) else e)⟩
  else .error .notFound

/-- Modelled from the spec: mask removal; `NotFound` if absent. -/
def H5Manager.remove_mask (m : H5Manager) (s : Scope) (k : String) :
    Except MaskErr H5Manager :=
  if m.hasMask s k then .ok ⟨m.masks.filter (fun e => ¬ e.1 = (s, k))⟩
  else .error .notFound

/-- Modelled from the spec: mask lookup; `NotFound` if absent. -/
def H5Manager.get_mask (m : H5Manager) (s : Scope) (k : String) :
    Except MaskErr NpArray :=
  match m.masks.lookup (s, k) with
  | some a => .ok a
  | none => .error .notFound

/-! ## The `Masks` class (embedded from `src/pathml/core/masks.py`) -/

/-- Values a `Masks` instance attribute can hold: the store reference
(`self.h5manager`; the store's state is threaded separately) or the
temporary `self._masks` OrderedDict. -/
inductive AttrVal where
  | mgrRef
  | odict (d : List (String × NpArray))
  deriving DecidableEq, Repr

/-- The attribute dictionary of a `Masks` instance. -/
structure MasksObj where
  attrs : List (String × AttrVal)
  deriving DecidableEq, Repr

/-- Python-level errors surfaced by `Masks` methods. -/
inductive PyErr where
  | valueError
  | typeErrorArity
  | maskErr (e : MaskErr)
  deriving DecidableEq, Repr

/-- Attribute deletion (`del self._masks`). -/
def delAttr (attrs : List (String × AttrVal)) (k : String) :
    List (String × AttrVal) :=
  attrs.filter (fun p => ¬ p.1 = k)

/-- The `for mask in self._masks: self.h5manager.add_mask(...)` loop of
`Masks.__init__`: adds each entry in order, stopping at the first store
error and reporting the store state at that point. -/
def addMasksLoop (mgr : H5Manager) :
    List (String × NpArray) → Except (MaskErr × H5Manager) H5Manager
  | [] => .ok mgr
  | (k, a) :: rest =>
    match mgr.add_mask .slide k a with
    | .ok mgr2 => addMasksLoop mgr2 rest
    | .error e => .error (e, mgr)

/-- `Masks.__init__` (masks.py lines 25-51): sets `self.h5manager`; if
`masks` is truthy it must be a dict, every value an ndarray and every key a
str (each checked in its own loop, values first) or a `ValueError` is
raised before anything is written; the validated entries become
`self._masks`, are added to the store in order, and `self._masks` is
deleted.  Returns the construction result together with the store state as
of return or raise. -/
def masksInit (mgr : H5Manager) (masks : Option PyObj) :
    Except PyErr MasksObj × H5Manager :=
  let attrs0 : List (String × AttrVal) := [("h5manager", AttrVal.mgrRef)]
  match masks with
  | none => (.ok ⟨attrs0⟩, mgr)
  | some obj =>
    if obj.truthy then
      match obj with
      | .pydict entries =>
        if entries.any (fun e => ¬ e.2.isNdarray) then (.error .valueError, mgr)
        else if entries.any (fun e => ¬ e.1.isStr) then (.error .valueError, mgr)
        else
          let od := entries.map (fun e => (e.1.asStr, e.2.asArr))
          let attrs1 := attrs0 ++ [("_masks", AttrVal.odict od)]
          match addMasksLoop mgr od with
          | .ok mgr2 => (.ok ⟨delAttr attrs1 "_masks"⟩, mgr2)
          | .error (e, mgr2) => (.error (.maskErr e), mgr2)
      | _ => (.error .valueError, mgr)
    else (.ok ⟨attrs0⟩, mgr)

/-- `Masks.add` (masks.py lines 67-75): delegates to
`self.h5manager.add_mask` (slide scope). -/
def MasksAdd (mgr : H5Manager) (key : String) (mask : NpArray) :
    Except MaskErr H5Manager :=
  mgr.add_mask .slide key mask

/-- `Masks.remove` (masks.py lines 77-84): delegates to
`self.h5manager.remove_mask`. -/
def MasksRemove (mgr : H5Manager) (key : String) : Except MaskErr H5Manager :=
  mgr.remove_mask .slide key

/-- `Masks.keys` (masks.py lines 63-65): `list(self.h5manager.h5["masks"].keys())`,
the slide-scope mask keys of the store. -/
def MasksKeys (mgr : H5Manager) : List String :=
  mgr.maskKeysAt .slide

/-- The body of `Masks.__getitem__(self, tile, item)` (masks.py line 57-58),
as called with both positional arguments bound. -/
def masksGetitemCall (mgr : H5Manager) (tile : Scope) (item : String) :
    Except MaskErr NpArray :=
  mgr.get_mask tile item

/-- The body of `Masks.__setitem__(self, tile, key, mask)` (masks.py lines
60-61), as called with all positional arguments bound. -/
def masksSetitemCall (mgr : H5Manager) (tile : Scope) (key : String)
    (mask : NpArray) : Except MaskErr H5Manager :=
  mgr.update_mask tile key mask

/-- Positional parameters (after `self`) declared by `Masks.__getitem__`
(masks.py line 57). -/
def getitemParams : List String := ["tile", "item"]

/-- Positional parameters (after `self`) declared by `Masks.__setitem__`
(masks.py line 60). -/
def setitemParams : List String := ["tile", "key", "mask"]

/-- Python call semantics: a bound method invoked with `nargs` positional
arguments fails with `TypeError` unless `nargs` matches the declared
parameter count; only then does the body run. -/
def pycall {α : Type} (params : List String) (nargs : Nat)
    (body : Except PyErr α) : Except PyErr α :=
  if nargs = params.length then body else .error .typeErrorArity

/-- Subscript read `masksobj[key]`: the protocol passes exactly one
positional argument to `__getitem__`.  Were the arity to match, the single
argument would bind to the first parameter and the body would run (shown
here at slide scope). -/
def subscriptGet (mgr : H5Manager) (key : String) : Except PyErr NpArray :=
  pycall getitemParams 1 ((mgr.get_mask .slide key).mapError .maskErr)

/-- Subscript write `masksobj[key] = mask`: the protocol passes exactly two
positional arguments to `__setitem__`. -/
def subscriptSet (mgr : H5Manager) (key : String) (mask : NpArray) :
    Except PyErr H5Manager :=
  pycall setitemParams 2 ((mgr.update_mask .slide key mask).mapError .maskErr)

/-! ## TileGrid (spec §4.1; per-axis tile count pinned by the repository's
own test `test_pipeline_overlapping_tiles`, lines 166-172 of
`tests/integration_tests/test_pipeline_running.py`) -/

/-- Per-axis number of tile origins, exactly as the repository's test
asserts it: `dim // stride + 1` when padding, `(dim - tile_size) // stride + 1`
otherwise (natural-number floor division, as in Python for these
non-negative quantities). -/
def testAxisTileCount (dim tile stride : Nat) (pad : Bool) : Nat :=
  if pad then dim / stride + 1 else (dim - tile) / stride + 1

/-- The claim's per-axis count formula, written from the spec's words:
`ceil((S - T) / K) + 1` when padding, `floor((S - T) / K) + 1` otherwise. -/
def claimAxisCount (S T K : Nat) (pad : Bool) : Nat :=
  if pad then (S - T + K - 1) / K + 1 else (S - T) / K + 1

/-- Modelled from the spec: the ordered per-axis tile origins — multiples of
the stride starting at 0, as many as the per-axis count (the count itself is
the one the repository's test asserts). -/
def axisOrigins (dim tile stride : Nat) (pad : Bool) : List Nat :=
  (List.range (testAxisTileCount dim tile stride pad)).map (fun i => i * stride)

/-- Row-major Cartesian product of per-axis origin lists. -/
def gridProduct : List (List Nat) → List (List Nat)
  | [] => [[]]
  | axis :: rest => (axis.map (fun o => (gridProduct rest).map (fun c => o :: c))).flatten

/-- Modelled from the spec: the TileGrid's ordered set of tile coordinates —
the Cartesian product of the per-axis origins (§4.1). -/
def tileGrid (shape : List Nat) (tile stride : Nat) (pad : Bool) : List (List Nat) :=
  gridProduct (shape.map (fun dim => axisOrigins dim tile stride pad))

/-! ## Store round-trip (spec §4.2; `h5pathManager`'s container layout is
not among the sources, so the Store and its serialization are modelled from
the spec) -/

/-- Label values: string, integer, float (by bit pattern, so equality is
exact bit equality), boolean, or fixed-shape numeric array (spec §3). -/
inductive LabelVal where
  | strV (s : String)
  | intV (n : Int)
  | fltV (bits : Nat)
  | boolV (b : Bool)
  | arrV (a : NpArray)
  deriving DecidableEq, Repr

/-- One counts table: rows keyed by string identifiers, cells as numeric
bit patterns. -/
structure CTable where
  rows : List (String × List Nat)
  cols : List String
  deriving DecidableEq, Repr

/-- A stored tile: its origin coordinate, pixel array, and tile-scoped
labels. -/
structure TileRec where
  coord : List Int
  pixels : NpArray
  labels : List (String × LabelVal)
  deriving DecidableEq, Repr

/-- Modelled from the spec: the Store's entity model — tiles, masks, labels
(each in insertion order) and an optional counts pair (empty tables are a
valid state distinct from absent). -/
structure StoreData where
  tiles : List TileRec
  masks : List (String × NpArray)
  labels : List (String × LabelVal)
  counts : Option (CTable × CTable)
  deriving DecidableEq, Repr

def StoreData.emptyStore : StoreData := ⟨[], [], [], none⟩

/-- One serialized record of the backing container. -/
inductive Entry where
  | tileE (t : TileRec)
  | maskE (k : String) (a : NpArray)
  | labelE (k : String) (v : LabelVal)
  | countsE (obs var : CTable)
  deriving DecidableEq, Repr

/-- Modelled from the spec: `close()` — flush the store to the flat backing
container, one record per entity, preserving each namespace's insertion
order. -/
def closeStore (s : StoreData) : List Entry :=
  s.tiles.map Entry.tileE
    ++ s.masks.map (fun p => Entry.maskE p.1 p.2)
    ++ s.labels.map (fun p => Entry.labelE p.1 p.2)
    ++ (match s.counts with
        | some (o, v) => [Entry.countsE o v]
        | none => [])

/-- Reading one container record back into the store. -/
def insertEntry (s : StoreData) : Entry → StoreData
  | .tileE t => { s with tiles := s.tiles ++ [t] }
  | .maskE k a => { s with masks := s.masks ++ [(k, a)] }
  | .labelE k v => { s with labels := s.labels ++ [(k, v)] }
  | .countsE o v => { s with counts := some (o, v) }

/-- Modelled from the spec: `open(path)` — rebuild the store from the
backing container's records. -/
def openStore (es : List Entry) : StoreData :=
  es.foldl insertEntry StoreData.emptyStore

/-! ## PipelineEngine (spec §4.4; not among the sources, so modelled from
the spec: local scheduling processes tiles one at a time in enumeration
order, applies the transforms in list order to each tile's own content, and
commits the result keyed by the tile's coordinate) -/

/-- A tile coordinate (x, y). -/
abbrev Coord := Int × Int

/-- `put_tile`-style commit: insert or replace the value at a coordinate. -/
def commit {α : Type} (store : List (Coord × α)) (c : Coord) (v : α) :
    List (Coord × α) :=
  if (store.map Prod.fst).contains c then
    store.map (fun p => if p.1 = c then (c, v) else p)
  else store ++ [(c, v)]

/-- The transforms applied in list order to one tile's content. -/
def applyAll (ts : List (NpArray → NpArray)) (x : NpArray) : NpArray :=
  ts.foldl (fun v f => f v) x

/-- Modelled from the spec: the engine's local run — for each coordinate in
enumeration order, apply the transform list to that tile's own content and
commit the result at that coordinate. -/
def runPipeline (ts : List (NpArray → NpArray)) (readTile : Coord → NpArray) :
    List Coord → List (Coord × NpArray) → List (Coord × NpArray)
  | [], store => store
  | c :: rest, store => runPipeline ts readTile rest (commit store c (applyAll ts (readTile c)))

/-- Transform errors surfaced by a failing pipeline (the message of the
raised exception). -/
abbrev TErr := String

/-- A fallible transform list applied in order to one tile (each transform
may raise, coordinates may matter to the failure). -/
def applyAllE (ts : List (Coord → NpArray → Except TErr NpArray)) (c : Coord)
    (x : NpArray) : Except TErr NpArray :=
  ts.foldlM (fun v f => f c v) x

/-- Modelled from the spec: the engine's fail-fast run — tiles are processed
in enumeration order; a tile whose transform chain succeeds is committed;
the first tile whose chain raises aborts the run, surfacing the error
together with the store as committed so far (the failing tile is not
committed). -/
def runPipelineE (ts : List (Coord → NpArray → Except TErr NpArray))
    (readTile : Coord → NpArray) :
    List Coord → List (Coord × NpArray) →
    Except (TErr × List (Coord × NpArray)) (List (Coord × NpArray))
  | [], store => .ok store
  | c :: rest, store =>
    match applyAllE ts c (readTile c) with
    | .ok v => runPipelineE ts readTile rest (commit store c v)
    | .error e => .error (e, store)

/-! ## Mask operation traces and concrete sample data -/

/-- One store-level mask operation (the writes and removals reachable
through `put_mask`-style add, explicit update, and remove). -/
inductive MaskOp where
  | addOp (s : Scope) (k : String) (a : NpArray)
  | updateOp (s : Scope) (k : String) (a : NpArray)
  | removeOp (s : Scope) (k : String)
  deriving DecidableEq, Repr

/-- Apply one mask operation; a failing operation leaves the store
unchanged (spec §7: a store error aborts only the operation that caused
it). -/
def applyOp (m : H5Manager) : MaskOp → H5Manager
  | .addOp s k a =>
    match m.add_mask s k a with
    | .ok m2 => m2
    | .error _ => m
  | .updateOp s k a =>
    match m.update_mask s k a with
    | .ok m2 => m2
    | .error _ => m
  | .removeOp s k =>
    match m.remove_mask s k with
    | .ok m2 => m2
    | .error _ => m

/-- Apply a trace of mask operations in order. -/
def applyOps (m : H5Manager) (ops : List MaskOp) : H5Manager :=
  ops.foldl applyOp m

/-- The spec's mask invariant: every stored mask has a non-empty string key
and an integer-typed array value. -/
def maskInv (m : H5Manager) : Prop :=
  ∀ e ∈ m.masks, e.1.2 ≠ "" ∧ e.2.dtype.isInt = true

/-- Written from the spec's words for `keys()` (§4.3): how one operation
changes the slide-scope key list when keys are listed in insertion order —
a successful add of a fresh valid key appends it at the end, remove deletes
the key, update and operations on other scopes leave the list unchanged. -/
def specKeysStep (ks : List String) : MaskOp → List String
  | .addOp .slide k a =>
    if k ≠ "" ∧ a.dtype.isInt = true ∧ ¬ k ∈ ks then ks ++ [k] else ks
  | .addOp _ _ _ => ks
  | .updateOp _ _ _ => ks
  | .removeOp .slide k => ks.filter (fun x => ¬ x = k)
  | .removeOp _ _ => ks

/-- Written from the spec's words: the insertion-ordered key list after a
trace of operations, starting from a given key list. -/
def specInsertionKeys (ks : List String) (ops : List MaskOp) : List String :=
  ops.foldl specKeysStep ks

/-- A concrete store holding one slide-scope mask under key "m". -/
def sampleMgr : H5Manager := ⟨[((Scope.slide, "m"), sampleMask)]⟩

/-- A concrete tile reader whose content depends on the coordinate. -/
def demoRead : Coord → NpArray :=
  fun c => ⟨Dtype.uint8, [1], [c.1 + c.2]⟩

/-- A concrete one-transform pipeline (adds 1 to every pixel). -/
def demoTransforms : List (NpArray → NpArray) :=
  [fun a => ⟨a.dtype, a.shape, a.data.map (fun n => n + 1)⟩]

/-- A concrete fallible pipeline that raises exactly on tile coordinate
(2, 3). -/
def failingTransforms : List (Coord → NpArray → Except TErr NpArray) :=
  [fun c a => if c = ((2 : Int), (3 : Int)) then .error "boom" else .ok a]

/-! ## Helper lemmas -/

instance {ε α : Type} [DecidableEq ε] [DecidableEq α] : DecidableEq (Except ε α) :=
  fun x y =>
    match x, y with
    | .ok a, .ok b =>
      if h : a = b then .isTrue (by rw [h]) else .isFalse (by simp [h])
    | .error e, .error f =>
      if h : e = f then .isTrue (by rw [h]) else .isFalse (by simp [h])
    | .ok _, .error _ => .isFalse (by simp)
    | .error _, .ok _ => .isFalse (by simp)

instance (m : H5Manager) : Decidable (maskInv m) := by
  unfold maskInv
  infer_instance

lemma insert_tiles (ts : List TileRec) : ∀ (s : StoreData),
    (ts.map Entry.tileE).foldl insertEntry s = { s with tiles := s.tiles ++ ts } := by
  induction ts with
  | nil => intro s; simp
  | cons t rest ih => intro s; simp [insertEntry, ih]

lemma insert_masks (ms : List (String × NpArray)) : ∀ (s : StoreData),
    (ms.map (fun p => Entry.maskE p.1 p.2)).foldl insertEntry s
      = { s with masks := s.masks ++ ms } := by
  induction ms with
  | nil => intro s; simp
  | cons m rest ih => intro s; simp [insertEntry, ih]

lemma insert_labels (ls : List (String × LabelVal)) : ∀ (s : StoreData),
    (ls.map (fun p => Entry.labelE p.1 p.2)).foldl insertEntry s
      = { s with labels := s.labels ++ ls } := by
  induction ls with
  | nil => intro s; simp
  | cons l rest ih => intro s; simp [insertEntry, ih]

lemma gridProduct_length (ls : List (List Nat)) :
    (gridProduct ls).length = (ls.map List.length).prod := by
  induction ls with
  | nil => simp [gridProduct]
  | cons a rest ih =>
    simp only [gridProduct, List.length_flatten, List.map_map, Function.comp_def,
      List.length_map, ih, List.map_const', List.sum_replicate, smul_eq_mul,
      List.map_cons, List.prod_cons]

/-! ## Claim theorems -/

/-- C1: for any slide written via create, a sequence of writes, and close,
reopening via open and reading back every tile, mask, label, and counts
entry yields values equal to what was written, including the insertion
structure of the tile coordinate set and the ordering of mask keys (the
reopened store is equal, entity by entity and in order, to the one
written). -/
theorem store_round_trip (s : StoreData) : openStore (closeStore s) = s := by
  obtain ⟨ts, ms, ls, cs⟩ := s
  simp only [openStore, closeStore, List.foldl_append, insert_tiles, insert_masks,
    insert_labels]
  cases cs with
  | none => simp [StoreData.emptyStore]
  | some c => simp [StoreData.emptyStore, insertEntry]

/-- C2 counterexample: at shape (1000, 1000), tile size 500, stride 250 and
padding on, the tile grid (whose per-axis count is the one the repository's
own test asserts, `dim // stride + 1`) has 25 tiles, not the
`(ceil((S - T) / K) + 1)^2 = 9` the claim's formula gives. -/
theorem tileGrid_pad_count_deviates :
    ¬ ((tileGrid [1000, 1000] 500 250 true).length
        = claimAxisCount 1000 500 250 true * claimAxisCount 1000 500 250 true) := by
  decide

/-- C2 (amended): the total tile count produced by the tile grid equals the
product over axes of the per-axis origin count, where the per-axis count is
`floor(S / K) + 1` when padding is on and `floor((S - T) / K) + 1` when it is
off; in particular shape (1000, 1000) with tile 500 gives 4 tiles at stride
500, 9 at stride 250 and 1 at stride 1000 without padding. -/
theorem tileGrid_count (shape : List Nat) (tile stride : Nat) (pad : Bool) :
    (tileGrid shape tile stride pad).length
        = (shape.map (fun dim => testAxisTileCount dim tile stride pad)).prod
      ∧ (tileGrid [1000, 1000] 500 500 false).length = 4
      ∧ (tileGrid [1000, 1000] 500 250 false).length = 9
      ∧ (tileGrid [1000, 1000] 500 1000 false).length = 1 := by
  refine ⟨?_, by decide, by decide, by decide⟩
  simp [tileGrid, gridProduct_length, List.map_map, Function.comp_def, axisOrigins]

/-- C8: the claim says subscripting a MaskCollection by a single present key
returns the stored mask and single-key subscript assignment overwrites it;
but `Masks.__getitem__` declares two positional parameters (tile, item) and
`__setitem__` three, while Python's subscript protocol passes one (resp.
two), so both subscript forms raise TypeError even for a present key — the
stored mask is only reachable by calling the method explicitly with both
arguments. -/
theorem masks_subscript_arity :
    subscriptGet sampleMgr "m" = .error .typeErrorArity
      ∧ subscriptSet sampleMgr "m" sampleMask2 = .error .typeErrorArity
      ∧ masksGetitemCall sampleMgr .slide "m" = .ok sampleMask
      ∧ (masksSetitemCall sampleMgr .slide "m" sampleMask2).isOk = true := by
  decide

lemma add_mask_ok {m : H5Manager} {s : Scope} {k : String} {a : NpArray}
    {m2 : H5Manager} (h : m.add_mask s k a = .ok m2) :
    m2.masks = m.masks ++ [((s, k), a)] ∧ k ≠ "" ∧ a.dtype.isInt = true := by
  unfold H5Manager.add_mask at h
  split_ifs at h with h1 h2 h3 <;> simp_all [not_not] <;>
    exact (congrArg H5Manager.masks h).symm

lemma update_mask_ok {m : H5Manager} {s : Scope} {k : String} {a : NpArray}
    {m2 : H5Manager} (h : m.update_mask s k a = .ok m2) :
    m2.masks = m.masks.map (fun e => if e.1 = (s, k) then ((s, k), a) else e)
      ∧ k ≠ "" ∧ a.dtype.isInt = true := by
  unfold H5Manager.update_mask at h
  split_ifs at h with h1 h2 h3 <;> simp_all [not_not] <;>
    exact (congrArg H5Manager.masks h).symm

lemma remove_mask_ok {m : H5Manager} {s : Scope} {k : String}
    {m2 : H5Manager} (h : m.remove_mask s k = .ok m2) :
    m2.masks = m.masks.filter (fun e => ¬ e.1 = (s, k)) := by
  unfold H5Manager.remove_mask at h
  split_ifs at h with h1 <;> simp_all <;>
    exact (congrArg H5Manager.masks h).symm

lemma maskInv_applyOp (m : H5Manager) (op : MaskOp) (hm : maskInv m) :
    maskInv (applyOp m op) := by
  cases op with
  | addOp s k a =>
    simp only [applyOp]
    cases hcase : m.add_mask s k a with
    | error e => exact hm
    | ok m2 =>
      obtain ⟨hmasks, hk, hint⟩ := add_mask_ok hcase
      intro e he
      rw [hmasks] at he
      rcases List.mem_append.mp he with hold | hnew
      · exact hm e hold
      · rcases List.mem_singleton.mp hnew with rfl
        exact ⟨hk, hint⟩
  | updateOp s k a =>
    simp only [applyOp]
    cases hcase : m.update_mask s k a with
    | error e => exact hm
    | ok m2 =>
      obtain ⟨hmasks, hk, hint⟩ := update_mask_ok hcase
      intro e he
      rw [hmasks] at he
      rcases List.mem_map.mp he with ⟨e0, he0, hf⟩
      by_cases hc : e0.1 = (s, k)
      · rw [if_pos hc] at hf
        exact hf ▸ ⟨hk, hint⟩
      · rw [if_neg hc] at hf
        exact hf ▸ hm e0 he0
  | removeOp s k =>
    simp only [applyOp]
    cases hcase : m.remove_mask s k with
    | error e => exact hm
    | ok m2 =>
      have hmasks := remove_mask_ok hcase
      intro e he
      rw [hmasks] at he
      exact hm e (List.mem_filter.mp he).1

lemma maskInv_applyOps (ops : List MaskOp) : ∀ (m : H5Manager),
    maskInv m → maskInv (applyOps m ops) := by
  induction ops with
  | nil => intro m hm; exact hm
  | cons op rest ih =>
    intro m hm
    exact ih (applyOp m op) (maskInv_applyOp m op hm)

/-- C5: for every key that already exists in the collection's scope,
`add(key, array)` fails instead of overwriting the existing mask — and with
`DuplicateKey` whenever the value itself passes the key/type checks
(otherwise those checks reject the write first); add is insert-only. -/
theorem masks_add_duplicate (mgr : H5Manager) (k : String) (a : NpArray)
    (h : mgr.hasMask .slide k = true) :
    (∀ m2, MasksAdd mgr k a ≠ .ok m2)
      ∧ (k ≠ "" → a.dtype.isInt = true → MasksAdd mgr k a = .error .duplicateKey) := by
  have hrw : MasksAdd mgr k a
      = if k = "" then .error .invalidKey
        else if ¬ a.dtype.isInt then .error .typeMismatch
        else .error .duplicateKey := by
    unfold MasksAdd H5Manager.add_mask
    split_ifs with h1 h2 <;> simp [h]
  constructor
  · intro m2
    rw [hrw]
    split_ifs <;> simp
  · intro hk hint
    rw [hrw]
    simp [hk, hint]

theorem masks_add_duplicate_witness :
    sampleMgr.hasMask .slide "m" = true
      ∧ MasksAdd sampleMgr "m" sampleMask2 = .error .duplicateKey :=
  ⟨by decide,
    (masks_add_duplicate sampleMgr "m" sampleMask2 (by decide)).2
      (by decide) (by decide)⟩

/-- C6: every mask write (store-level add, i.e. `put_mask`, or update)
whose array is not integer-typed fails with TypeMismatch (when the key is
not itself empty, in which case the key check rejects it first), an empty
string key fails with InvalidKey, and consequently the invariant that every
stored mask is an integer array under a non-empty string key is preserved
by every operation trace. -/
theorem masks_write_constraints (mgr : H5Manager) (s : Scope) (k : String)
    (a : NpArray) :
    (a.dtype.isInt = false → k ≠ "" →
        mgr.add_mask s k a = .error .typeMismatch
          ∧ mgr.update_mask s k a = .error .typeMismatch)
      ∧ (k = "" →
        mgr.add_mask s k a = .error .invalidKey
          ∧ mgr.update_mask s k a = .error .invalidKey)
      ∧ (maskInv mgr → ∀ ops, maskInv (applyOps mgr ops)) := by
  refine ⟨?_, ?_, ?_⟩
  · intro hint hk
    constructor
    · unfold H5Manager.add_mask
      simp [hk, hint]
    · unfold H5Manager.update_mask
      simp [hk, hint]
  · intro hk
    constructor
    · unfold H5Manager.add_mask
      simp [hk]
    · unfold H5Manager.update_mask
      simp [hk]
  · intro hm ops
    exact maskInv_applyOps ops mgr hm

theorem masks_write_constraints_witness :
    sampleMgr.add_mask .slide "x" floatMask = .error .typeMismatch
      ∧ sampleMgr.update_mask .slide "" sampleMask2 = .error .invalidKey
      ∧ maskInv (applyOps sampleMgr [MaskOp.addOp .slide "y" sampleMask2]) :=
  ⟨((masks_write_constraints sampleMgr .slide "x" floatMask).1
      (by decide) (by decide)).1,
    ((masks_write_constraints sampleMgr .slide "" sampleMask2).2.1
      (by decide)).2,
    (masks_write_constraints sampleMgr .slide "y" sampleMask2).2.2
      (by decide) [MaskOp.addOp .slide "y" sampleMask2]⟩

lemma hasMask_iff (m : H5Manager) (s : Scope) (k : String) :
    m.hasMask s k = true ↔ k ∈ m.maskKeysAt s := by
  simp only [H5Manager.hasMask, H5Manager.maskKeysAt, List.any_eq_true,
    List.mem_map, List.mem_filter, decide_eq_true_eq]
  constructor
  · rintro ⟨e, he, heq⟩
    exact ⟨e, ⟨he, by rw [heq]⟩, by rw [heq]⟩
  · rintro ⟨e, ⟨he, hs⟩, hk⟩
    refine ⟨e, he, ?_⟩
    have : e.1 = (e.1.1, e.1.2) := rfl
    rw [this, hs, hk]

lemma keysAt_append (l1 l2 : List ((Scope × String) × NpArray)) (s : Scope) :
    (H5Manager.mk (l1 ++ l2)).maskKeysAt s
      = (H5Manager.mk l1).maskKeysAt s ++ (H5Manager.mk l2).maskKeysAt s := by
  simp [H5Manager.maskKeysAt, List.filter_append]

lemma keysAt_map_keep (l : List ((Scope × String) × NpArray))
    (f : ((Scope × String) × NpArray) → ((Scope × String) × NpArray))
    (hf : ∀ e, (f e).1 = e.1) (s : Scope) :
    (H5Manager.mk (l.map f)).maskKeysAt s = (H5Manager.mk l).maskKeysAt s := by
  induction l with
  | nil => rfl
  | cons e rest ih =>
    simp only [List.map_cons, H5Manager.maskKeysAt, List.filter_cons] at ih ⊢
    rw [hf e]
    split_ifs with hs
    · simp only [List.map_cons, hf e]
      exact congrArg _ ih
    · exact ih

lemma keysAt_remove (l : List ((Scope × String) × NpArray)) (s : Scope)
    (k : String) :
    (H5Manager.mk (l.filter (fun e => ¬ e.1 = (s, k)))).maskKeysAt s
      = ((H5Manager.mk l).maskKeysAt s).filter (fun x => ¬ x = k) := by
  induction l with
  | nil => rfl
  | cons e rest ih =>
    simp only [H5Manager.maskKeysAt] at ih ⊢
    simp only [List.filter_filter, decide_not] at ih
    by_cases hek : e.1 = (s, k)
    · have hs : e.1.1 = s := by rw [hek]
      have hk : e.1.2 = k := by rw [hek]
      simp [List.filter_cons, List.filter_filter, hek, hs, hk, ih]
    · by_cases hs : e.1.1 = s
      · have hk : ¬ e.1.2 = k := by
          intro hc
          apply hek
          have hpair : e.1 = (e.1.1, e.1.2) := rfl
          rw [hpair, hs, hc]
        simp [List.filter_cons, List.filter_filter, hek, hs, hk, ih]
      · simp [List.filter_cons, List.filter_filter, hek, hs, ih]

lemma keysAt_remove_other (l : List ((Scope × String) × NpArray))
    (s s2 : Scope) (k : String) (hne : ¬ s2 = s) :
    (H5Manager.mk (l.filter (fun e => ¬ e.1 = (s2, k)))).maskKeysAt s
      = (H5Manager.mk l).maskKeysAt s := by
  induction l with
  | nil => rfl
  | cons e rest ih =>
    simp only [H5Manager.maskKeysAt] at ih ⊢
    simp only [List.filter_filter, decide_not] at ih
    by_cases hek : e.1 = (s2, k)
    · have hs : ¬ e.1.1 = s := by
        rw [hek]
        exact hne
      simp [List.filter_cons, List.filter_filter, hek, hs, hne, ih]
    · by_cases hs : e.1.1 = s
      · simp [List.filter_cons, List.filter_filter, hek, hs, ih]
      · simp [List.filter_cons, List.filter_filter, hek, hs, ih]

lemma keysAt_congr {m2 : H5Manager} {l : List ((Scope × String) × NpArray)}
    (h : m2.masks = l) (s : Scope) :
    m2.maskKeysAt s = (H5Manager.mk l).maskKeysAt s := by
  cases m2
  cases h
  rfl

lemma keysAt_applyOp (m : H5Manager) (op : MaskOp) :
    (applyOp m op).maskKeysAt .slide = specKeysStep (m.maskKeysAt .slide) op := by
  cases op with
  | addOp s k a =>
    simp only [applyOp]
    cases hcase : m.add_mask s k a with
    | error e =>
      have hfail : k = "" ∨ a.dtype.isInt = false ∨ m.hasMask s k = true := by
        by_cases h1 : k = ""
        · exact Or.inl h1
        · by_cases h2 : a.dtype.isInt = true
          · by_cases h3 : m.hasMask s k = true
            · exact Or.inr (Or.inr h3)
            · unfold H5Manager.add_mask at hcase
              rw [if_neg h1, if_neg (not_not_intro h2), if_neg h3] at hcase
              cases hcase
          · refine Or.inr (Or.inl ?_)
            cases hh : a.dtype.isInt
            · rfl
            · exact absurd hh h2
      cases s with
      | slide =>
        simp only [specKeysStep]
        have hcond : ¬ (k ≠ "" ∧ a.dtype.isInt = true ∧ ¬ k ∈ m.maskKeysAt .slide) := by
          rcases hfail with h | h | h
          · intro hc
            exact hc.1 h
          · intro hc
            rw [hc.2.1] at h
            cases h
          · intro hc
            exact hc.2.2 ((hasMask_iff m .slide k).mp h)
        rw [if_neg hcond]
      | tileAt x y => rfl
    | ok m2 =>
      obtain ⟨hmasks, hk, hint⟩ := add_mask_ok hcase
      have hnotmem : m.hasMask s k = false := by
        cases hh : m.hasMask s k
        · rfl
        · unfold H5Manager.add_mask at hcase
          rw [if_neg hk, if_neg (not_not_intro hint), if_pos hh] at hcase
          cases hcase
      rw [keysAt_congr hmasks, keysAt_append]
      cases s with
      | slide =>
        simp only [specKeysStep]
        have hcond : k ≠ "" ∧ a.dtype.isInt = true ∧ ¬ k ∈ m.maskKeysAt .slide := by
          refine ⟨hk, hint, ?_⟩
          intro hmem
          rw [(hasMask_iff m .slide k).mpr hmem] at hnotmem
          cases hnotmem
        rw [if_pos hcond]
        simp [H5Manager.maskKeysAt]
      | tileAt x y =>
        simp [specKeysStep, H5Manager.maskKeysAt]
  | updateOp s k a =>
    simp only [applyOp, specKeysStep]
    cases hcase : m.update_mask s k a with
    | error e => rfl
    | ok m2 =>
      obtain ⟨hmasks, -, -⟩ := update_mask_ok hcase
      rw [keysAt_congr hmasks]
      refine keysAt_map_keep m.masks _ ?_ .slide
      intro e
      by_cases hc : e.1 = (s, k) <;> simp [hc]
  | removeOp s k =>
    simp only [applyOp]
    cases hcase : m.remove_mask s k with
    | error e =>
      have hnot : m.hasMask s k = false := by
        cases hh : m.hasMask s k
        · rfl
        · unfold H5Manager.remove_mask at hcase
          rw [if_pos hh] at hcase
          cases hcase
      cases s with
      | slide =>
        simp only [specKeysStep]
        have hmem : ¬ k ∈ m.maskKeysAt .slide := by
          intro hmem
          rw [(hasMask_iff m .slide k).mpr hmem] at hnot
          cases hnot
        rw [List.filter_eq_self.mpr]
        intro x hx
        simp only [decide_eq_true_eq]
        intro hc
        exact hmem (hc ▸ hx)
      | tileAt x y => rfl
    | ok m2 =>
      have hmasks := remove_mask_ok hcase
      rw [keysAt_congr hmasks]
      cases s with
      | slide => exact keysAt_remove m.masks .slide k
      | tileAt x y =>
        simp only [specKeysStep]
        refine keysAt_remove_other m.masks .slide (.tileAt x y) k ?_
        intro hc
        cases hc

lemma keysAt_applyOps (ops : List MaskOp) : ∀ (m : H5Manager),
    (applyOps m ops).maskKeysAt .slide
      = specInsertionKeys (m.maskKeysAt .slide) ops := by
  induction ops with
  | nil => intro m; rfl
  | cons op rest ih =>
    intro m
    have step := keysAt_applyOp m op
    calc (applyOps m (op :: rest)).maskKeysAt .slide
        = (applyOps (applyOp m op) rest).maskKeysAt .slide := rfl
      _ = specInsertionKeys ((applyOp m op).maskKeysAt .slide) rest := ih _
      _ = specInsertionKeys (specKeysStep (m.maskKeysAt .slide) op) rest := by rw [step]
      _ = specInsertionKeys (m.maskKeysAt .slide) (op :: rest) := rfl

/-- C7: the keys operation returns exactly the set of currently-present
mask keys for its scope (membership coincides with presence in the store)
and lists them in insertion order: across any trace of add/update/remove
operations, the key list evolves exactly as the spec's insertion-order
description prescribes (a fresh add appends at the end, remove deletes the
key, update changes nothing). -/
theorem masks_keys_insertion_order (mgr : H5Manager) (ops : List MaskOp) :
    MasksKeys (applyOps mgr ops) = specInsertionKeys (MasksKeys mgr) ops
      ∧ (∀ k, k ∈ MasksKeys mgr ↔ mgr.hasMask .slide k = true) := by
  constructor
  · exact keysAt_applyOps ops mgr
  · intro k
    exact (hasMask_iff mgr .slide k).symm

lemma lookup_replace_self (c : Coord) (v : NpArray) :
    ∀ (store : List (Coord × NpArray)), c ∈ store.map Prod.fst →
    (store.map (fun p => if p.1 = c then (c, v) else p)).lookup c = some v := by
  intro store
  induction store with
  | nil => intro h; simp at h
  | cons p rest ih =>
    intro h
    by_cases hc : p.1 = c
    · rw [List.map_cons, if_pos hc]
      simp [List.lookup]
    · rw [List.map_cons, if_neg hc]
      have hcp : (c == p.1) = false := by
        simp only [beq_eq_false_iff_ne, ne_eq]
        intro hcc
        exact hc hcc.symm
      simp only [List.lookup, hcp]
      apply ih
      rw [List.map_cons] at h
      rcases List.mem_cons.mp h with h1 | h1
      · exact absurd h1.symm hc
      · exact h1

lemma lookup_append_self (c : Coord) (v : NpArray) :
    ∀ (store : List (Coord × NpArray)), ¬ c ∈ store.map Prod.fst →
    (store ++ [(c, v)]).lookup c = some v := by
  intro store
  induction store with
  | nil => intro _; simp [List.lookup]
  | cons p rest ih =>
    intro h
    have hc : ¬ c = p.1 := by
      intro hcc
      exact h (by simp [hcc])
    have hcp : (c == p.1) = false := by simpa using hc
    simp only [List.cons_append, List.lookup, hcp]
    apply ih
    intro hmem
    exact h (by simp [hmem])

lemma contains_eq_mem (l : List Coord) (c : Coord) :
    l.contains c = true ↔ c ∈ l := by
  simp [List.contains_iff_exists_mem_beq, beq_iff_eq]

lemma lookup_commit_self (store : List (Coord × NpArray)) (c : Coord)
    (v : NpArray) : (commit store c v).lookup c = some v := by
  unfold commit
  by_cases hmem : c ∈ store.map Prod.fst
  · rw [if_pos ((contains_eq_mem _ c).mpr hmem)]
    exact lookup_replace_self c v store hmem
  · rw [if_neg (fun hcon => hmem ((contains_eq_mem _ c).mp hcon))]
    exact lookup_append_self c v store hmem

lemma lookup_map_replace_ne (c c2 : Coord) (v : NpArray) (h : ¬ c = c2) :
    ∀ (store : List (Coord × NpArray)),
    (store.map (fun p => if p.1 = c2 then (c2, v) else p)).lookup c
      = store.lookup c := by
  have h1 : (c == c2) = false := by simpa using h
  intro store
  induction store with
  | nil => rfl
  | cons p rest ih =>
    by_cases hc : p.1 = c2
    · rw [List.map_cons, if_pos hc]
      have h2 : (c == p.1) = false := by rw [hc]; exact h1
      simp only [List.lookup, h1, h2]
      exact ih
    · rw [List.map_cons, if_neg hc]
      simp only [List.lookup]
      cases hcp : c == p.1
      · exact ih
      · rfl

lemma lookup_append_ne (c c2 : Coord) (v : NpArray) (h : ¬ c = c2) :
    ∀ (store : List (Coord × NpArray)),
    (store ++ [(c2, v)]).lookup c = store.lookup c := by
  have h1 : (c == c2) = false := by simpa using h
  intro store
  induction store with
  | nil => simp [List.lookup, h1]
  | cons p rest ih =>
    simp only [List.cons_append, List.lookup]
    cases hcp : c == p.1
    · exact ih
    · rfl

lemma lookup_commit_ne (c c2 : Coord) (v : NpArray) (h : ¬ c = c2)
    (store : List (Coord × NpArray)) :
    (commit store c2 v).lookup c = store.lookup c := by
  unfold commit
  split
  · exact lookup_map_replace_ne c c2 v h store
  · exact lookup_append_ne c c2 v h store

lemma runPipeline_lookup_notmem (ts : List (NpArray → NpArray))
    (readTile : Coord → NpArray) :
    ∀ (coords : List Coord) (store : List (Coord × NpArray)) (c : Coord),
    ¬ c ∈ coords →
    (runPipeline ts readTile coords store).lookup c = store.lookup c := by
  intro coords
  induction coords with
  | nil => intro store c _; rfl
  | cons d rest ih =>
    intro store c h
    have hcd : ¬ c = d := fun hc => h (by simp [hc])
    have hcr : ¬ c ∈ rest := fun hc => h (by simp [hc])
    calc (runPipeline ts readTile (d :: rest) store).lookup c
        = (runPipeline ts readTile rest
            (commit store d (applyAll ts (readTile d)))).lookup c := rfl
      _ = (commit store d (applyAll ts (readTile d))).lookup c := ih _ c hcr
      _ = store.lookup c := lookup_commit_ne c d _ hcd store

lemma runPipeline_lookup_mem (ts : List (NpArray → NpArray))
    (readTile : Coord → NpArray) :
    ∀ (coords : List Coord) (store : List (Coord × NpArray)) (c : Coord),
    coords.Nodup → c ∈ coords →
    (runPipeline ts readTile coords store).lookup c
      = some (applyAll ts (readTile c)) := by
  intro coords
  induction coords with
  | nil => intro store c _ h; simp at h
  | cons d rest ih =>
    intro store c hnd hc
    rcases List.mem_cons.mp hc with rfl | hcr
    · have hdr : ¬ c ∈ rest := (List.nodup_cons.mp hnd).1
      calc (runPipeline ts readTile (c :: rest) store).lookup c
          = (runPipeline ts readTile rest
              (commit store c (applyAll ts (readTile c)))).lookup c := rfl
        _ = (commit store c (applyAll ts (readTile c))).lookup c :=
            runPipeline_lookup_notmem ts readTile rest _ c hdr
        _ = some (applyAll ts (readTile c)) := lookup_commit_self _ c _
    · exact ih _ c (List.nodup_cons.mp hnd).2 hcr

/-- C3: with overlapping tiles (stride < tile size) the coordinates are
still pairwise distinct, and the engine applies the transform list to each
tile's own content only; re-running the same pipeline on the same input is
deterministic (the run is a pure function of its inputs), and the tile read
back at any fixed coordinate equals that tile's own transformed output, not
an overlapping neighbor's contribution. -/
theorem pipeline_tile_isolation (ts : List (NpArray → NpArray))
    (readTile : Coord → NpArray) (coords : List Coord) (c : Coord)
    (hnd : coords.Nodup) (hc : c ∈ coords) :
    runPipeline ts readTile coords [] = runPipeline ts readTile coords []
      ∧ (runPipeline ts readTile coords []).lookup c
          = some (applyAll ts (readTile c)) :=
  ⟨rfl, runPipeline_lookup_mem ts readTile coords [] c hnd hc⟩

theorem pipeline_tile_isolation_witness :
    (runPipeline demoTransforms demoRead
        [((0 : Int), (0 : Int)), (0, 250), (250, 0)] []).lookup (0, 250)
      = some (applyAll demoTransforms (demoRead (0, 250))) :=
  (pipeline_tile_isolation demoTransforms demoRead
      [((0 : Int), (0 : Int)), (0, 250), (250, 0)] (0, 250)
      (by decide) (by decide)).2

lemma commit_keys_fresh (store : List (Coord × NpArray)) (c : Coord)
    (v : NpArray) (h : ¬ c ∈ store.map Prod.fst) :
    (commit store c v).map Prod.fst = store.map Prod.fst ++ [c] := by
  unfold commit
  rw [if_neg (fun hcon => h ((contains_eq_mem _ c).mp hcon))]
  simp

lemma lookup_none_notmem (c : Coord) :
    ∀ (store : List (Coord × NpArray)), ¬ c ∈ store.map Prod.fst →
    store.lookup c = none := by
  intro store
  induction store with
  | nil => intro _; rfl
  | cons p rest ih =>
    intro h
    have hc : ¬ c = p.1 := fun hcc => h (by simp [hcc])
    have hcp : (c == p.1) = false := by simpa using hc
    simp only [List.lookup, hcp]
    apply ih
    intro hm
    exact h (by simp [hm])

lemma runPipelineE_ok_prefix (ts : List (Coord → NpArray → Except TErr NpArray))
    (readTile : Coord → NpArray) :
    ∀ (pre rest : List Coord) (store : List (Coord × NpArray)),
    (∀ d ∈ pre, (applyAllE ts d (readTile d)).isOk = true) → pre.Nodup →
    (∀ d ∈ pre, ¬ d ∈ store.map Prod.fst) →
    ∃ store2,
      runPipelineE ts readTile (pre ++ rest) store
          = runPipelineE ts readTile rest store2
        ∧ store2.map Prod.fst = store.map Prod.fst ++ pre := by
  intro pre
  induction pre with
  | nil =>
    intro rest store _ _ _
    exact ⟨store, rfl, by simp⟩
  | cons d pre2 ih =>
    intro rest store hok hnd hfresh
    obtain ⟨v, hv⟩ : ∃ v, applyAllE ts d (readTile d) = .ok v := by
      cases hcase : applyAllE ts d (readTile d) with
      | ok v => exact ⟨v, rfl⟩
      | error e =>
        have hisok := hok d (by simp)
        rw [hcase] at hisok
        simp [Except.isOk, Except.toBool] at hisok
    have hdfresh : ¬ d ∈ store.map Prod.fst := hfresh d (by simp)
    have hkeys := commit_keys_fresh store d v hdfresh
    have hnd2 := List.nodup_cons.mp hnd
    obtain ⟨store2, heq, hk2⟩ := ih rest (commit store d v)
      (fun e he => hok e (by simp [he]))
      hnd2.2
      (fun e he => by
        rw [hkeys]
        intro hmem
        rcases List.mem_append.mp hmem with hm | hm
        · exact hfresh e (by simp [he]) hm
        · rcases List.mem_singleton.mp hm with rfl
          exact hnd2.1 he)
    refine ⟨store2, ?_, ?_⟩
    · calc runPipelineE ts readTile ((d :: pre2) ++ rest) store
          = runPipelineE ts readTile (pre2 ++ rest) (commit store d v) := by
            simp [runPipelineE, hv]
        _ = runPipelineE ts readTile rest store2 := heq
    · rw [hk2, hkeys, List.append_assoc]
      simp

/-- C4: if a transform raises on some tile coordinate, the run aborts
fail-fast — every tile enumerated before the failing coordinate remains
committed in the store (its keys are exactly the prior coordinates), and
the failing tile itself is absent from the store. -/
theorem pipeline_fail_fast (ts : List (Coord → NpArray → Except TErr NpArray))
    (readTile : Coord → NpArray) (pre post : List Coord) (c : Coord)
    (err : TErr) (hnd : (pre ++ c :: post).Nodup)
    (hok : ∀ d ∈ pre, (applyAllE ts d (readTile d)).isOk = true)
    (hfail : applyAllE ts c (readTile c) = .error err) :
    ∃ store, runPipelineE ts readTile (pre ++ c :: post) [] = .error (err, store)
      ∧ store.map Prod.fst = pre ∧ store.lookup c = none := by
  have hsplit := List.nodup_append.mp hnd
  obtain ⟨store2, heq, hk⟩ := runPipelineE_ok_prefix ts readTile pre (c :: post) []
    hok hsplit.1 (fun d _ => by simp)
  have hk2 : store2.map Prod.fst = pre := by simpa using hk
  have hstep : runPipelineE ts readTile (c :: post) store2 = .error (err, store2) := by
    simp [runPipelineE, hfail]
  have hcpre : ¬ c ∈ pre := by
    intro hm
    exact hsplit.2.2 hm (List.mem_cons_self c post)
  refine ⟨store2, ?_, hk2, ?_⟩
  · rw [heq, hstep]
  · apply lookup_none_notmem
    rw [hk2]
    exact hcpre

theorem pipeline_fail_fast_witness :
    ∃ store, runPipelineE failingTransforms demoRead
        ([((0 : Int), (0 : Int)), (1, 1)] ++ ((2 : Int), (3 : Int)) :: [((4 : Int), (4 : Int))]) []
        = .error ("boom", store)
      ∧ store.map Prod.fst = [((0 : Int), (0 : Int)), (1, 1)]
      ∧ store.lookup ((2 : Int), (3 : Int)) = none :=
  pipeline_fail_fast failingTransforms demoRead
    [((0 : Int), (0 : Int)), (1, 1)] [((4 : Int), (4 : Int))]
    ((2 : Int), (3 : Int)) "boom" (by decide) (by decide) (by decide)

/-- C9: after construction a Masks instance holds no independent mask
state — its attribute dictionary is exactly the store reference (the
temporary `_masks` dict is deleted before `__init__` returns; the code does
not even keep a separate scope attribute, which is within the claim's
"nothing beyond store and scope"), and every operation (add, remove, get,
set, keys) reads or writes mask data exclusively through the store. -/
theorem masks_store_sole_state (mgr : H5Manager) (masks : Option PyObj)
    (obj : MasksObj) (mgr2 : H5Manager)
    (h : masksInit mgr masks = (.ok obj, mgr2)) :
    obj.attrs = [("h5manager", AttrVal.mgrRef)]
      ∧ (∀ k a, MasksAdd mgr2 k a = mgr2.add_mask .slide k a)
      ∧ (∀ k, MasksRemove mgr2 k = mgr2.remove_mask .slide k)
      ∧ MasksKeys mgr2 = mgr2.maskKeysAt .slide
      ∧ (∀ t i, masksGetitemCall mgr2 t i = mgr2.get_mask t i)
      ∧ (∀ t k a, masksSetitemCall mgr2 t k a = mgr2.update_mask t k a) := by
  refine ⟨?_, fun k a => rfl, fun k => rfl, rfl, fun t i => rfl, fun t k a => rfl⟩
  cases masks with
  | none =>
    simp only [masksInit, Prod.mk.injEq] at h
    obtain ⟨h1, -⟩ := h
    injection h1 with h1
    rw [← h1]
  | some po =>
    cases po with
    | scalar v =>
      simp only [masksInit] at h
      split_ifs at h with h1
      · exact absurd h (by simp)
      · simp only [Prod.mk.injEq] at h
        obtain ⟨ho, -⟩ := h
        injection ho with ho
        rw [← ho]
    | pylist xs =>
      simp only [masksInit] at h
      split_ifs at h with h1
      · exact absurd h (by simp)
      · simp only [Prod.mk.injEq] at h
        obtain ⟨ho, -⟩ := h
        injection ho with ho
        rw [← ho]
    | pydict entries =>
      simp only [masksInit] at h
      split_ifs at h with h1 h2 h3
      · exact absurd h (by simp)
      · exact absurd h (by simp)
      · cases hloop : addMasksLoop mgr
            (entries.map (fun e => (e.1.asStr, e.2.asArr))) with
        | ok mgr3 =>
          rw [hloop] at h
          simp only [Prod.mk.injEq] at h
          obtain ⟨ho, -⟩ := h
          injection ho with ho
          rw [← ho]
          simp [delAttr]
        | error pe =>
          rw [hloop] at h
          obtain ⟨pe1, mgr4⟩ := pe
          exact absurd h (by simp)
      · simp only [Prod.mk.injEq] at h
        obtain ⟨ho, -⟩ := h
        injection ho with ho
        rw [← ho]

theorem masks_store_sole_state_witness :
    (⟨[("h5manager", AttrVal.mgrRef)]⟩ : MasksObj).attrs
      = [("h5manager", AttrVal.mgrRef)] :=
  (masks_store_sole_state H5Manager.empty
      (some (PyObj.pydict [(PyVal.pystr "m", PyVal.arr sampleMask)]))
      ⟨[("h5manager", AttrVal.mgrRef)]⟩ sampleMgr (by decide)).1

/-- C10: the Masks constructor validates before writing — a truthy non-dict
argument, a dict with a non-ndarray value, or a dict with a non-str key
each raise ValueError with the backing store unchanged (no mask is added),
while a falsy argument (None or an empty dict) constructs successfully with
no masks added. -/
theorem masks_init_validates (mgr : H5Manager) (obj : PyObj)
    (entries : List (PyVal × PyVal)) :
    (obj.truthy = true → (∀ es, obj ≠ .pydict es) →
        masksInit mgr (some obj) = (.error .valueError, mgr))
      ∧ ((∃ e ∈ entries, e.2.isNdarray = false) →
        masksInit mgr (some (.pydict entries)) = (.error .valueError, mgr))
      ∧ ((∀ e ∈ entries, e.2.isNdarray = true) →
          (∃ e ∈ entries, e.1.isStr = false) →
        masksInit mgr (some (.pydict entries)) = (.error .valueError, mgr))
      ∧ masksInit mgr none = (.ok ⟨[("h5manager", AttrVal.mgrRef)]⟩, mgr)
      ∧ (obj.truthy = false →
        masksInit mgr (some obj) = (.ok ⟨[("h5manager", AttrVal.mgrRef)]⟩, mgr)) := by
  refine ⟨?_, ?_, ?_, rfl, ?_⟩
  · intro ht hnot
    cases obj with
    | pydict es => exact absurd rfl (hnot es)
    | scalar v => simp [masksInit, ht]
    | pylist xs => simp [masksInit, ht]
  · rintro ⟨e, he, hnd⟩
    have ht : (PyObj.pydict entries).truthy = true := by
      simp only [PyObj.truthy, ne_eq, decide_eq_true_eq]
      intro hc
      rw [hc] at he
      cases he
    simp [masksInit, ht]
    intro hv _
    have hcontra := hv e.1 e.2 (by simpa using he)
    rw [hnd] at hcontra
    cases hcontra
  · intro hall
    rintro ⟨e, he, hks⟩
    have ht : (PyObj.pydict entries).truthy = true := by
      simp only [PyObj.truthy, ne_eq, decide_eq_true_eq]
      intro hc
      rw [hc] at he
      cases he
    simp [masksInit, ht]
    intro _ hk
    have hcontra := hk e.1 e.2 (by simpa using he)
    rw [hks] at hcontra
    cases hcontra
  · intro hf
    simp [masksInit, hf]

theorem masks_init_validates_witness :
    masksInit sampleMgr (some (PyObj.pylist [PyVal.pyint 1]))
        = (.error .valueError, sampleMgr)
      ∧ masksInit sampleMgr (some (PyObj.pydict [(PyVal.pystr "a", PyVal.pyint 2)]))
          = (.error .valueError, sampleMgr)
      ∧ masksInit sampleMgr (some (PyObj.pydict [(PyVal.pyint 7, PyVal.arr sampleMask)]))
          = (.error .valueError, sampleMgr)
      ∧ masksInit sampleMgr none = (.ok ⟨[("h5manager", AttrVal.mgrRef)]⟩, sampleMgr)
      ∧ masksInit sampleMgr (some (PyObj.pydict []))
          = (.ok ⟨[("h5manager", AttrVal.mgrRef)]⟩, sampleMgr) :=
  ⟨(masks_init_validates sampleMgr (PyObj.pylist [PyVal.pyint 1]) []).1
      (by decide) (fun es hcon => by cases hcon),
    (masks_init_validates sampleMgr (PyObj.pylist [PyVal.pyint 1])
        [(PyVal.pystr "a", PyVal.pyint 2)]).2.1 (by decide),
    (masks_init_validates sampleMgr (PyObj.pylist [PyVal.pyint 1])
        [(PyVal.pyint 7, PyVal.arr sampleMask)]).2.2.1 (by decide) (by decide),
    (masks_init_validates sampleMgr (PyObj.pylist [PyVal.pyint 1]) []).2.2.2.1,
    (masks_init_validates sampleMgr (PyObj.pydict []) []).2.2.2.2 (by decide)⟩

end PathML
